import Mathlib

/-!
Shallow embedding of the ZoneWidget editor (zw-editor.js): the in-memory
zone list, the edit/view mode gate, the import/export codec
(`normalizeImport` and the export payload built by the export button), the
draw-created / delete / clear handlers, the public `setZones` / `setMode`
API and the focus controller.

Modelling conventions:
* JS numbers are rationals plus an explicit NaN constructor.  The widget's
  numeric fields (timestamps, zoom levels) are integer-valued in practice,
  so string-to-number coercion is modelled for integer literals only.
* The Leaflet bounds computation (`L.geoJSON(g).getBounds()` when the
  result is valid, null/exception otherwise) is an oracle parameter
  `geoBounds : JVal -> Option Bounds`, shared by the import center
  derivation, the draw handler and the focus controller, exactly as the
  source routes all three through the same library call.
* `makeId` (random id generation) and `Date.now()` are oracle parameters
  `gen` / `now`; the clock is a single value per operation.
* `options.limit` is modelled as a natural number (its default is 4).
-/

namespace ZW

/-- JS values, as far as the widget inspects them: primitives, arrays and
objects seen as association lists of fields. -/
inductive JVal where
  | undefined
  | null
  | jbool (b : Bool)
  | num (q : ℚ)
  | nan
  | str (s : String)
  | arr (xs : List JVal)
  | obj (fields : List (String × JVal))

mutual

/-- Structural equality test on JS values. -/
def JVal.beq : JVal → JVal → Bool
  | .undefined, .undefined => true
  | .null, .null => true
  | .jbool a, .jbool b => a == b
  | .num a, .num b => a == b
  | .nan, .nan => true
  | .str a, .str b => a == b
  | .arr xs, .arr ys => JVal.beqList xs ys
  | .obj fs, .obj gs => JVal.beqFields fs gs
  | _, _ => false

/-- Structural equality test on JS array contents. -/
def JVal.beqList : List JVal → List JVal → Bool
  | [], [] => true
  | x :: xs, y :: ys => JVal.beq x y && JVal.beqList xs ys
  | _, _ => false

/-- Structural equality test on JS object fields. -/
def JVal.beqFields : List (String × JVal) → List (String × JVal) → Bool
  | [], [] => true
  | (k, v) :: fs, (k2, v2) :: gs => k == k2 && JVal.beq v v2 && JVal.beqFields fs gs
  | _, _ => false

end

mutual

theorem JVal.beq_eq : ∀ a b : JVal, JVal.beq a b = true → a = b
  | .undefined, .undefined, _ => rfl
  | .null, .null, _ => rfl
  | .jbool a, .jbool b, h => by
    simp only [JVal.beq, beq_iff_eq] at h
    rw [h]
  | .num a, .num b, h => by
    simp only [JVal.beq, beq_iff_eq] at h
    rw [h]
  | .nan, .nan, _ => rfl
  | .str a, .str b, h => by
    simp only [JVal.beq, beq_iff_eq] at h
    rw [h]
  | .arr xs, .arr ys, h => by
    rw [JVal.beqList_eq xs ys (by simpa [JVal.beq] using h)]
  | .obj fs, .obj gs, h => by
    rw [JVal.beqFields_eq fs gs (by simpa [JVal.beq] using h)]

theorem JVal.beqList_eq : ∀ xs ys : List JVal, JVal.beqList xs ys = true → xs = ys
  | [], [], _ => rfl
  | x :: xs, y :: ys, h => by
    simp only [JVal.beqList, Bool.and_eq_true] at h
    rw [JVal.beq_eq x y h.1, JVal.beqList_eq xs ys h.2]

theorem JVal.beqFields_eq :
    ∀ fs gs : List (String × JVal), JVal.beqFields fs gs = true → fs = gs
  | [], [], _ => rfl
  | (k, v) :: fs, (k2, v2) :: gs, h => by
    simp only [JVal.beqFields, Bool.and_eq_true, beq_iff_eq] at h
    rw [h.1.1, JVal.beq_eq v v2 h.1.2, JVal.beqFields_eq fs gs h.2]

end

mutual

theorem JVal.beq_refl : ∀ a : JVal, JVal.beq a a = true
  | .undefined => rfl
  | .null => rfl
  | .jbool a => by simp [JVal.beq]
  | .num a => by simp [JVal.beq]
  | .nan => rfl
  | .str a => by simp [JVal.beq]
  | .arr xs => by simpa [JVal.beq] using JVal.beqList_refl xs
  | .obj fs => by simpa [JVal.beq] using JVal.beqFields_refl fs

theorem JVal.beqList_refl : ∀ xs : List JVal, JVal.beqList xs xs = true
  | [] => rfl
  | x :: xs => by
    simp only [JVal.beqList, Bool.and_eq_true]
    exact ⟨JVal.beq_refl x, JVal.beqList_refl xs⟩

theorem JVal.beqFields_refl : ∀ fs : List (String × JVal), JVal.beqFields fs fs = true
  | [] => rfl
  | (k, v) :: fs => by
    simp only [JVal.beqFields, Bool.and_eq_true]
    exact ⟨⟨by simp, JVal.beq_refl v⟩, JVal.beqFields_refl fs⟩

end

instance : DecidableEq JVal := fun a b =>
  if h : JVal.beq a b = true then isTrue (JVal.beq_eq a b h)
  else isFalse (fun hh => h (hh ▸ JVal.beq_refl a))

/-- JS truthiness: undefined, null, false, 0, NaN and the empty string are
falsy; every array and object is truthy. -/
def truthy : JVal → Bool
  | .undefined => false
  | .null => false
  | .jbool b => b
  | .num q => q ≠ 0
  | .nan => false
  | .str s => s ≠ ""
  | .arr _ => true
  | .obj _ => true

/-- Property access `v.k` / `v?.k`, yielding undefined when the field is
absent or the value is not an object (the widget only ever reads fields off
parsed JSON values, where primitive property access yields undefined). -/
def JVal.get (v : JVal) (k : String) : JVal :=
  match v with
  | .obj fields =>
    match fields.lookup k with
    | some x => x
    | none => .undefined
  | _ => .undefined

/-- `Number(v)` as a rational; `none` models NaN.  String parsing is
restricted to integer literals (blank strings coerce to 0 as in JS); array
coercion covers the empty and singleton-number cases the widget could meet. -/
def toNumber : JVal → Option ℚ
  | .undefined => none
  | .null => some 0
  | .jbool b => some (if b then 1 else 0)
  | .num q => some q
  | .nan => none
  | .str s => if s.trim = "" then some 0 else (s.trim.toInt?).map (fun n => (n : ℚ))
  | .arr [] => some 0
  | .arr [.num q] => some q
  | .arr (_ :: _ :: _) => none
  | .arr [_] => none
  | .obj _ => none

/-- `Number(v) || d`, the coalescing used for `createdAt` and `zoom`: both 0
and NaN fall through to the default. -/
def numOr (v : JVal) (d : ℚ) : ℚ :=
  match toNumber v with
  | some q => if q = 0 then d else q
  | none => d

/-- `Array.isArray(v)`. -/
def isArr : JVal → Bool
  | .arr _ => true
  | _ => false

/-- A stored zone record: id, createdAt, geojson, center, zoom.  The store
keeps `createdAt` and `zoom` as plain (non-NaN) numbers, while `id`,
`geojson` and `center` carry whatever JS value came in. -/
structure Zone where
  id : JVal
  createdAt : ℚ
  geojson : JVal
  center : JVal
  zoom : ℚ
  deriving DecidableEq

/-- The two exceptions `normalizeImport` can throw. -/
inductive ImportError where
  | invalidFormat
  | missingGeometry
  deriving DecidableEq

instance {ε α : Type} [DecidableEq ε] [DecidableEq α] : DecidableEq (Except ε α) := fun a b =>
  match a, b with
  | .ok x, .ok y =>
    if h : x = y then isTrue (by rw [h]) else isFalse (by intro hh; cases hh; exact h rfl)
  | .error x, .error y =>
    if h : x = y then isTrue (by rw [h]) else isFalse (by intro hh; cases hh; exact h rfl)
  | .ok _, .error _ => isFalse (by intro hh; cases hh)
  | .error _, .ok _ => isFalse (by intro hh; cases hh)

/-- The fixed fallback coordinate 43.238949, 76.889709 (written as explicit
rationals). -/
def fallbackCenter : JVal :=
  .arr [.num (mkRat 43238949 1000000), .num (mkRat 76889709 1000000)]

/-- A Leaflet LatLngBounds, reduced to its corner coordinates. -/
structure Bounds where
  swLat : ℚ
  swLng : ℚ
  neLat : ℚ
  neLng : ℚ
  deriving DecidableEq

/-- `bounds.getCenter()`: the midpoint of the corners. -/
def Bounds.center (b : Bounds) : ℚ × ℚ :=
  ((b.swLat + b.neLat) / 2, (b.swLng + b.neLng) / 2)

/-- First mapping pass of `normalizeImport` on one element `z`: throw
`missingGeometry` when `z?.geojson` is falsy; otherwise build the record
with `z.id` or a generated id, `Number(z.createdAt)` or the current time,
`z.center` when it is an array else null, and `Number(z.zoom)` or 14. -/
def normalize1 (gen : String) (now : ℚ) (z : JVal) : Except ImportError Zone :=
  if truthy (z.get "geojson") then
    .ok { id := if truthy (z.get "id") then z.get "id" else .str gen
          createdAt := numOr (z.get "createdAt") now
          geojson := z.get "geojson"
          center := if isArr (z.get "center") then z.get "center" else .null
          zoom := numOr (z.get "zoom") 14 }
  else .error .missingGeometry

/-- The first `.map` of `normalizeImport` over the sliced list: JS evaluates
left to right and the first element lacking geojson aborts the whole call.
The generator is indexed to model one `makeId`-style call per element. -/
def normalizeSeq (gen : Nat → String) (now : ℚ) : Nat → List JVal → Except ImportError (List Zone)
  | _, [] => .ok []
  | i, z :: zs =>
    match normalize1 (gen i) now z with
    | .error e => .error e
    | .ok w =>
      match normalizeSeq gen now (i + 1) zs with
      | .error e => .error e
      | .ok ws => .ok (w :: ws)

/-- Second `.map` pass: keep a truthy center; otherwise derive it from the
geometry bounds when those are valid, otherwise use the fixed fallback
coordinate. -/
def deriveCenter (geoBounds : JVal → Option Bounds) (z : Zone) : Zone :=
  if truthy z.center then z
  else
    match geoBounds z.geojson with
    | some b => { z with center := .arr [.num b.center.1, .num b.center.2] }
    | none => { z with center := fallbackCenter }

/-- The raw-zones selection of `normalizeImport`: the payload itself when it
is an array, else `payload?.zones`. -/
def rawZones (payload : JVal) : JVal :=
  if isArr payload then payload else payload.get "zones"

/-- `normalizeImport(payload, limit)`: take the payload itself when it is an
array, else `payload?.zones`; reject with `invalidFormat` when that is not
an array; slice to the first `limit` elements; then run both mapping
passes. -/
def normalizeImport (geoBounds : JVal → Option Bounds) (gen : Nat → String) (now : ℚ)
    (payload : JVal) (limit : Nat) : Except ImportError (List Zone) :=
  match rawZones payload with
  | .arr xs =>
    match normalizeSeq gen now 0 (xs.take limit) with
    | .ok ws => .ok (ws.map (deriveCenter geoBounds))
    | .error e => .error e
  | _ => .error .invalidFormat

/-- A stored zone as the JSON value `JSON.stringify` writes for it. -/
def Zone.toJVal (z : Zone) : JVal :=
  .obj [("id", z.id), ("createdAt", .num z.createdAt), ("geojson", z.geojson),
    ("center", z.center), ("zoom", .num z.zoom)]

/-- The export button's payload: version 1, exportedAt, meta (the options'
limit, center and zoom) and the zones snapshot. -/
def exportPayload (limit : Nat) (optCenter : JVal) (optZoom : ℚ) (exportedAt : String)
    (zones : List Zone) : JVal :=
  .obj [("version", .num 1), ("exportedAt", .str exportedAt),
    ("meta", .obj [("limit", .num (limit : ℚ)), ("center", optCenter), ("zoom", .num optZoom)]),
    ("zones", .arr (zones.map Zone.toJVal))]

/-- The widget mode. -/
inductive Mode where
  | edit
  | view
  deriving DecidableEq

/-- The widget state: the mode flag plus the ordered zone list. -/
structure WState where
  mode : Mode
  zones : List Zone
  deriving DecidableEq

/-- Outcome of the `L.Draw.Event.CREATED` handler. -/
inductive CreateResult where
  | notEdit
  | limitReached
  | created (z : Zone)
  deriving DecidableEq

/-- The `L.Draw.Event.CREATED` handler: return without touching the list
outside edit mode; when the list is already at the limit only refresh the
limit hint; otherwise push a new zone whose center is the drawn geometry's
bounds center (main-map center as fallback), whose zoom is
`Math.min(map.getZoom(), 17)`, with a fresh id and the current time.
`drawnZone` is the record the handler pushes; `drawCreated` is the handler
itself. -/
def drawnZone (geoBounds : JVal → Option Bounds) (freshId : String) (now : ℚ)
    (mapCenter : ℚ × ℚ) (mapZoom : ℚ) (geo : JVal) : Zone :=
  let c := match geoBounds geo with
    | some b => b.center
    | none => mapCenter
  { id := .str freshId, createdAt := now, geojson := geo,
    center := .arr [.num c.1, .num c.2], zoom := min mapZoom 17 }

def drawCreated (geoBounds : JVal → Option Bounds) (freshId : String) (now : ℚ)
    (mapCenter : ℚ × ℚ) (mapZoom : ℚ) (limit : Nat) (geo : JVal) (s : WState) :
    WState × CreateResult :=
  if s.mode ≠ Mode.edit then (s, .notEdit)
  else if limit ≤ s.zones.length then (s, .limitReached)
  else
    let z := drawnZone geoBounds freshId now mapCenter mapZoom geo
    ({ s with zones := s.zones ++ [z] }, .created z)

/-- The grid's delete-button click: gated on edit mode; `findIndex` then
`splice(idx, 1)` removes the first zone whose id strictly equals the
clicked card's id string, if any. -/
def deleteZone (id : String) (s : WState) : WState :=
  if s.mode ≠ Mode.edit then s
  else
    match s.zones.findIdx? (fun z => z.id == JVal.str id) with
    | some i => { s with zones := s.zones.eraseIdx i }
    | none => s

/-- The clear-all button: gated on edit mode; empties the zone list. -/
def clearAll (s : WState) : WState :=
  if s.mode ≠ Mode.edit then s else { s with zones := [] }

/-- The file-import change handler: gated on edit mode; a decode error is
caught and leaves the zone list untouched, otherwise the decoded list
replaces it wholesale. -/
def importFile (geoBounds : JVal → Option Bounds) (gen : Nat → String) (now : ℚ)
    (payload : JVal) (limit : Nat) (s : WState) : WState :=
  if s.mode ≠ Mode.edit then s
  else
    match normalizeImport geoBounds gen now payload limit with
    | .ok ws => { s with zones := ws }
    | .error _ => s

/-- The public `setZones(payload)` API: not mode gated; the normalized
payload replaces the zone list, and a decode error escapes to the caller
with the list untouched. -/
def setZones (geoBounds : JVal → Option Bounds) (gen : Nat → String) (now : ℚ)
    (payload : JVal) (limit : Nat) (s : WState) : WState × Option ImportError :=
  match normalizeImport geoBounds gen now payload limit with
  | .ok ws => ({ s with zones := ws }, none)
  | .error e => (s, some e)

/-- The public `setMode(newMode)` API: any value other than the string
"view" is normalized to edit. -/
def setMode (newMode : JVal) (s : WState) : WState :=
  { s with mode := if newMode = JVal.str "view" then Mode.view else Mode.edit }

/-- The mode-toggle button. -/
def toggleMode (s : WState) : WState :=
  { s with mode := if s.mode = Mode.edit then Mode.view else Mode.edit }

/-- A navigation request against the main map. -/
inductive ViewTarget where
  | fitBounds (b : Bounds) (paddingX paddingY : ℚ)
  | setView (center : JVal) (zoom : ℚ)
  deriving DecidableEq

/-- `focusZone`: fit the geometry's bounds with padding 30,30 when they are
valid, else center on `zone.center` at `zone.zoom || 14`. -/
def focusZone (geoBounds : JVal → Option Bounds) (z : Zone) : ViewTarget :=
  match geoBounds z.geojson with
  | some b => .fitBounds b 30 30
  | none => .setView z.center (if z.zoom = 0 then 14 else z.zoom)

/-- `focusZoneById`: focus the first zone whose id strictly equals the given
id string (both callers, the grid click and the public `focus`, pass a
string); `none` models the silent no-op when no zone matches. -/
def focusZoneById (geoBounds : JVal → Option Bounds) (id : String) (s : WState) :
    Option ViewTarget :=
  match s.zones.find? (fun z => z.id == JVal.str id) with
  | some z => some (focusZone geoBounds z)
  | none => none

/-- One user/host action against the widget, with the per-event oracle data
(fresh id, map center and zoom at draw time) carried on the action. -/
inductive Op where
  | draw (geo : JVal) (mapCenter : ℚ × ℚ) (mapZoom : ℚ) (freshId : String)
  | del (id : String)
  | imp (payload : JVal)
  | clear
  | setZ (payload : JVal)
  | setM (m : JVal)
  | toggle

/-- The widget's mutating step function, dispatching each action to its
handler. -/
def step (geoBounds : JVal → Option Bounds) (gen : Nat → String) (now : ℚ) (limit : Nat) :
    Op → WState → WState
  | .draw geo mc mz fid, s => (drawCreated geoBounds fid now mc mz limit geo s).1
  | .del id, s => deleteZone id s
  | .imp p, s => importFile geoBounds gen now p limit s
  | .clear, s => clearAll s
  | .setZ p, s => (setZones geoBounds gen now p limit s).1
  | .setM m, s => setMode m s
  | .toggle, s => toggleMode s

/-- A zone record on which normalization is the identity: truthy id and
geojson, nonzero createdAt and zoom (JS `||` coalesces falsy values away)
and an array center. -/
def Zone.Wf (z : Zone) : Prop :=
  truthy z.id = true ∧ z.createdAt ≠ 0 ∧ truthy z.geojson = true ∧
    isArr z.center = true ∧ z.zoom ≠ 0

instance (z : Zone) : Decidable z.Wf := by
  unfold Zone.Wf
  infer_instance

/-! ### Concrete sample data

Fixtures used to instantiate the oracle parameters and to witness or refute
the claims on concrete inputs. -/

/-- A minimal truthy geometry payload, standing for a GeoJSON Feature blob. -/
def gFeat : JVal := .obj [("type", .str "Feature")]

/-- A bounds oracle that reports invalid bounds for every geometry. -/
def gNone : JVal → Option Bounds := fun _ => none

/-- A deterministic instantiation of the id-generation oracle. -/
def gen0 : Nat → String := fun i => "z_gen" ++ toString i

/-- A well-formed sample zone. -/
def zA : Zone :=
  { id := .str "z_a", createdAt := 5, geojson := gFeat,
    center := .arr [.num 1, .num 2], zoom := 3 }

/-- A second well-formed sample zone. -/
def zB : Zone :=
  { id := .str "z_b", createdAt := 6, geojson := gFeat,
    center := .arr [.num 3, .num 4], zoom := 4 }

/-- A third well-formed sample zone. -/
def zC : Zone :=
  { id := .str "z_c", createdAt := 7, geojson := gFeat,
    center := .arr [.num 5, .num 6], zoom := 5 }

/-- A zone carrying a center whose zoom level is 0: a perfectly formed record
by the spec's data model, but one on which the JS `||` coalescing is not the
identity. -/
def zZ0 : Zone :=
  { id := .str "z_zero", createdAt := 8, geojson := gFeat,
    center := .arr [.num 7, .num 8], zoom := 0 }

/-- An import element with a geometry payload. -/
def goodItem : JVal := .obj [("geojson", gFeat)]

/-- An import element lacking a geometry payload. -/
def badItem : JVal := .obj [("id", .str "b")]

/-- An import element whose geometry is present but whose other fields all sit
on the falsy/edge side of the claimed normalization: empty-string id, zero
createdAt, empty-array center, zero zoom. -/
def edgeItem : JVal :=
  .obj [("geojson", gFeat), ("id", .str ""), ("createdAt", .num 0),
    ("center", .arr []), ("zoom", .num 0)]

/-- The zone that `goodItem` normalizes to under `gNone`/`gen0` at time 99. -/
def goodItemZone : Zone :=
  { id := .str "z_gen0", createdAt := 99, geojson := gFeat,
    center := fallbackCenter, zoom := 14 }

/-- What the code stores for `edgeItem`: generated id, clock createdAt,
preserved empty-array center, defaulted zoom. -/
def edgeItemStored : Zone :=
  { id := .str "z_gen0", createdAt := 99, geojson := gFeat,
    center := .arr [], zoom := 14 }

/-- What claim C5's field rules predict for `edgeItem`: id preserved since
present, createdAt coerced to the number 0, center derived (fallback
coordinate, the oracle reporting no bounds) since not a two-element array,
zoom kept at the finite number 0. -/
def edgeItemClaimed : Zone :=
  { id := .str "", createdAt := 0, geojson := gFeat,
    center := fallbackCenter, zoom := 0 }

/-- The per-element field rules of the decode step, as amended to match the
JS truthiness coalescing: stated over `normalize1` (first pass) composed
with `deriveCenter` (second pass). -/
def RetainedFieldRules (gB : JVal → Option Bounds) (gen : String) (now : ℚ)
    (z : JVal) : Prop :=
  ∃ w : Zone, normalize1 gen now z = .ok w ∧
    w.geojson = z.get "geojson" ∧
    (truthy (z.get "id") = true → w.id = z.get "id") ∧
    (truthy (z.get "id") = false → w.id = .str gen) ∧
    (∀ q : ℚ, toNumber (z.get "createdAt") = some q → q ≠ 0 → w.createdAt = q) ∧
    (toNumber (z.get "createdAt") = none ∨ toNumber (z.get "createdAt") = some 0 →
      w.createdAt = now) ∧
    (isArr (z.get "center") = true → (deriveCenter gB w).center = z.get "center") ∧
    (isArr (z.get "center") = false → gB (z.get "geojson") = none →
      (deriveCenter gB w).center = fallbackCenter) ∧
    (∀ b : Bounds, isArr (z.get "center") = false → gB (z.get "geojson") = some b →
      (deriveCenter gB w).center = .arr [.num b.center.1, .num b.center.2]) ∧
    (∀ q : ℚ, toNumber (z.get "zoom") = some q → q ≠ 0 → w.zoom = q) ∧
    (toNumber (z.get "zoom") = none ∨ toNumber (z.get "zoom") = some 0 → w.zoom = 14)

/-! ### Helper lemmas -/

theorem truthy_of_isArr {v : JVal} (h : isArr v = true) : truthy v = true := by
  cases v <;> simp_all [isArr, truthy]

theorem toJVal_get_id (z : Zone) : z.toJVal.get "id" = z.id := rfl

theorem toJVal_get_createdAt (z : Zone) : z.toJVal.get "createdAt" = .num z.createdAt := rfl

theorem toJVal_get_geojson (z : Zone) : z.toJVal.get "geojson" = z.geojson := rfl

theorem toJVal_get_center (z : Zone) : z.toJVal.get "center" = z.center := rfl

theorem toJVal_get_zoom (z : Zone) : z.toJVal.get "zoom" = .num z.zoom := rfl

theorem numOr_num {q d : ℚ} (h : q ≠ 0) : numOr (.num q) d = q := by
  simp [numOr, toNumber, h]

theorem normalize1_toJVal (gen : String) (now : ℚ) (z : Zone) (h : z.Wf) :
    normalize1 gen now z.toJVal = .ok z := by
  obtain ⟨h1, h2, h3, h4, h5⟩ := h
  simp only [normalize1, toJVal_get_id, toJVal_get_createdAt, toJVal_get_geojson,
    toJVal_get_center, toJVal_get_zoom, h1, h3, h4, if_true, numOr_num h2, numOr_num h5]

theorem normalizeSeq_toJVal (gen : Nat → String) (now : ℚ) :
    ∀ (i : Nat) (ws : List Zone), (∀ z ∈ ws, z.Wf) →
      normalizeSeq gen now i (ws.map Zone.toJVal) = .ok ws
  | _, [], _ => rfl
  | i, w :: ws, h => by
    simp only [List.map_cons, normalizeSeq]
    rw [normalize1_toJVal (gen i) now w (h w (by simp)),
      normalizeSeq_toJVal gen now (i + 1) ws (fun z hz => h z (by simp [hz]))]

theorem deriveCenter_truthy (gB : JVal → Option Bounds) (z : Zone)
    (h : truthy z.center = true) : deriveCenter gB z = z := by
  simp [deriveCenter, h]

theorem map_deriveCenter_wf (gB : JVal → Option Bounds) :
    ∀ ws : List Zone, (∀ z ∈ ws, z.Wf) → ws.map (deriveCenter gB) = ws
  | [], _ => rfl
  | w :: ws, h => by
    rw [List.map_cons, deriveCenter_truthy gB w (truthy_of_isArr (h w (by simp)).2.2.2.1),
      map_deriveCenter_wf gB ws (fun z hz => h z (by simp [hz]))]

theorem normalizeImport_raw_arr (gB : JVal → Option Bounds) (gen : Nat → String) (now : ℚ)
    (payload : JVal) (limit : Nat) (xs : List JVal) (hraw : rawZones payload = .arr xs) :
    normalizeImport gB gen now payload limit =
      match normalizeSeq gen now 0 (xs.take limit) with
      | .ok ws => .ok (ws.map (deriveCenter gB))
      | .error e => .error e := by
  unfold normalizeImport
  rw [hraw]

/-- Decoding the image of a list of well-formed zones yields exactly the
first `limit` of those zones back. -/
theorem normalizeImport_wf (gB : JVal → Option Bounds) (gen : Nat → String) (now : ℚ)
    (payload : JVal) (ws : List Zone) (limit : Nat)
    (hraw : rawZones payload = .arr (ws.map Zone.toJVal)) (h : ∀ z ∈ ws, z.Wf) :
    normalizeImport gB gen now payload limit = .ok (ws.take limit) := by
  have hsub : ∀ z ∈ ws.take limit, z.Wf := fun z hz => h z (List.mem_of_mem_take hz)
  rw [normalizeImport_raw_arr gB gen now payload limit _ hraw, ← List.map_take,
    normalizeSeq_toJVal gen now 0 (ws.take limit) hsub]
  exact congrArg Except.ok (map_deriveCenter_wf gB (ws.take limit) hsub)

theorem rawZones_exportPayload (limit : Nat) (c : JVal) (oz : ℚ) (e : String)
    (zs : List Zone) : rawZones (exportPayload limit c oz e zs) = .arr (zs.map Zone.toJVal) :=
  rfl

theorem rawZones_arr (xs : List JVal) : rawZones (.arr xs) = .arr xs := rfl

theorem normalizeSeq_length (gen : Nat → String) (now : ℚ) :
    ∀ (xs : List JVal) (i : Nat) (ws : List Zone),
      normalizeSeq gen now i xs = .ok ws → ws.length = xs.length := by
  intro xs
  induction xs with
  | nil =>
    intro i ws h
    cases h
    rfl
  | cons z zs ih =>
    intro i ws h
    simp only [normalizeSeq] at h
    cases hz : normalize1 (gen i) now z <;> rw [hz] at h
    · cases h
    · cases hs : normalizeSeq gen now (i + 1) zs <;> rw [hs] at h
      · cases h
      · cases h
        simp [ih _ _ hs]

/-- A payload whose raw-zones selection is not an array decodes to the
format error. -/
theorem normalizeImport_not_arr (gB : JVal → Option Bounds) (gen : Nat → String) (now : ℚ)
    (payload : JVal) (limit : Nat) (h : isArr (rawZones payload) = false) :
    normalizeImport gB gen now payload limit = .error .invalidFormat := by
  unfold normalizeImport
  cases hraw : rawZones payload <;> first | rfl | (rw [hraw] at h; simp [isArr] at h)

/-- Every successful decode produces at most `limit` zones. -/
theorem normalizeImport_length (gB : JVal → Option Bounds) (gen : Nat → String) (now : ℚ)
    (payload : JVal) (limit : Nat) (ws : List Zone)
    (h : normalizeImport gB gen now payload limit = .ok ws) : ws.length ≤ limit := by
  cases hraw : rawZones payload
  case arr xs =>
    rw [normalizeImport_raw_arr gB gen now payload limit xs hraw] at h
    cases hs : normalizeSeq gen now 0 (xs.take limit) <;> rw [hs] at h
    · cases h
    · cases h
      calc ((_ : List Zone).map (deriveCenter gB)).length
          = (xs.take limit).length := by
            simp [normalizeSeq_length gen now (xs.take limit) 0 _ hs]
        _ ≤ limit := List.length_take_le _ _
  all_goals rw [normalizeImport_not_arr gB gen now payload limit (by rw [hraw]; rfl)] at h
  all_goals cases h

/-- If any of the first `limit` raw elements lacks a geometry payload the
whole sequence is rejected with the geometry error. -/
theorem normalizeSeq_missing (gen : Nat → String) (now : ℚ) :
    ∀ (xs : List JVal) (i : Nat), (∃ z ∈ xs, truthy (z.get "geojson") = false) →
      normalizeSeq gen now i xs = .error .missingGeometry := by
  intro xs
  induction xs with
  | nil =>
    intro i h
    obtain ⟨z, hz, _⟩ := h
    cases hz
  | cons z zs ih =>
    intro i h
    simp only [normalizeSeq]
    by_cases hg : truthy (z.get "geojson") = true
    · have : ∃ w ∈ zs, truthy (w.get "geojson") = false := by
        obtain ⟨w, hw, hwf⟩ := h
        cases List.mem_cons.mp hw with
        | inl he =>
          exact absurd hg (by rw [he] at hwf; simp [hwf])
        | inr hm => exact ⟨w, hm, hwf⟩
      rw [ih (i + 1) this]
      simp [normalize1, hg]
    · simp [normalize1, hg]

theorem findIdx?_middle (p : Zone → Bool) :
    ∀ (l1 : List Zone) (z : Zone) (l2 : List Zone), (∀ w ∈ l1, p w = false) →
      p z = true → (l1 ++ z :: l2).findIdx? p = some l1.length
  | [], z, l2, _, hz => by simp [List.findIdx?_cons, hz]
  | x :: l1, z, l2, h1, hz => by
    have hx : p x = false := h1 x (by simp)
    simp only [List.cons_append, List.findIdx?_cons, hx, Bool.false_eq_true, if_false,
      List.findIdx?_succ]
    rw [findIdx?_middle p l1 z l2 (fun w hw => h1 w (by simp [hw])) hz]
    rfl

theorem eraseIdx_middle : ∀ (l1 : List Zone) (z : Zone) (l2 : List Zone),
    (l1 ++ z :: l2).eraseIdx l1.length = l1 ++ l2
  | [], _, _ => rfl
  | x :: l1, z, l2 => by
    simp only [List.cons_append, List.length_cons, List.eraseIdx_cons_succ,
      eraseIdx_middle l1 z l2]

/-! ### Claims -/

/-- Claim C1, counterexample: the public `setZones` operation mutates the
Zone Set even while Mode is view — on an empty set in view mode it installs
the given zone, so not every mutating operation attempted in view mode
leaves the set unchanged. -/
theorem c1_setZones_in_view_cex :
    (setZones gNone gen0 99 (.arr [zA.toJVal]) 4
        { mode := Mode.view, zones := [] }).1.zones = [zA] ∧
      [zA] ≠ ([] : List Zone) := by
  decide

/-- Claim C1 (amended): while Mode is view, the widget-internal mutating
entry points — create via draw-completion, delete, file import, clear —
all leave the Zone Set unchanged; the public `setZones` API bypasses the
mode gate and mutates in any mode. -/
theorem c1_view_mode_mutations_noop (gB : JVal → Option Bounds) (gen : Nat → String)
    (now : ℚ) (limit : Nat) (geo payload : JVal) (mc : ℚ × ℚ) (mz : ℚ)
    (fid : String) (id : String) (s : WState) (h : s.mode = Mode.view) :
    (drawCreated gB fid now mc mz limit geo s).1 = s ∧
      deleteZone id s = s ∧
      importFile gB gen now payload limit s = s ∧
      clearAll s = s := by
  have hne : s.mode ≠ Mode.edit := by rw [h]; intro hx; cases hx
  refine ⟨?_, ?_, ?_, ?_⟩ <;> simp [drawCreated, deleteZone, importFile, clearAll, hne]

/-- Witness for C1 at a concrete view-mode state holding one zone. -/
theorem c1_witness :
    (({ mode := Mode.view, zones := [zA] } : WState).mode = Mode.view) ∧
      ((drawCreated gNone "z_f" 9 (1, 2) 10 4 gFeat { mode := Mode.view, zones := [zA] }).1 =
          { mode := Mode.view, zones := [zA] } ∧
        deleteZone "z_a" { mode := Mode.view, zones := [zA] } =
          { mode := Mode.view, zones := [zA] } ∧
        importFile gNone gen0 9 (.arr [zB.toJVal]) 4 { mode := Mode.view, zones := [zA] } =
          { mode := Mode.view, zones := [zA] } ∧
        clearAll { mode := Mode.view, zones := [zA] } = { mode := Mode.view, zones := [zA] }) :=
  ⟨rfl, c1_view_mode_mutations_noop gNone gen0 9 4 gFeat (.arr [zB.toJVal]) (1, 2) 10
    "z_f" "z_a" { mode := Mode.view, zones := [zA] } rfl⟩

/-- Claim C2, counterexample: with limit 1, an input whose second element
lacks a geometry payload is not rejected — the slice to the first `limit`
elements happens before the geometry check, so the first element is imported
and the malformed one silently dropped. -/
theorem c2_beyond_limit_cex :
    truthy (badItem.get "geojson") = false ∧
      normalizeImport gNone gen0 99 (.arr [goodItem, badItem]) 1 = .ok [goodItemZone] := by
  decide

/-- Claim C2 (amended): if any of the first `limit` elements of the zones
array lacks a geometry payload, the whole decode is rejected with
MissingGeometry and the file-import handler leaves the widget state
unchanged; elements beyond the first `limit` are sliced away before the
geometry check. -/
theorem c2_missing_geometry_rejects (gB : JVal → Option Bounds) (gen : Nat → String)
    (now : ℚ) (payload : JVal) (xs : List JVal) (limit : Nat) (s : WState)
    (hraw : rawZones payload = .arr xs)
    (h : ∃ z ∈ xs.take limit, truthy (z.get "geojson") = false) :
    normalizeImport gB gen now payload limit = .error .missingGeometry ∧
      importFile gB gen now payload limit s = s := by
  have hrej : normalizeImport gB gen now payload limit = .error .missingGeometry := by
    rw [normalizeImport_raw_arr gB gen now payload limit xs hraw,
      normalizeSeq_missing gen now (xs.take limit) 0 h]
  refine ⟨hrej, ?_⟩
  unfold importFile
  by_cases hm : s.mode ≠ Mode.edit
  · simp [hm]
  · simp [hm, hrej]

/-- Witness for C2 on a concrete one-element payload lacking geometry. -/
theorem c2_witness :
    (rawZones (.arr [badItem]) = .arr [badItem] ∧
      ∃ z ∈ ([badItem] : List JVal).take 4, truthy (z.get "geojson") = false) ∧
      (normalizeImport gNone gen0 99 (.arr [badItem]) 4 = .error .missingGeometry ∧
        importFile gNone gen0 99 (.arr [badItem]) 4 { mode := Mode.edit, zones := [zA] } =
          { mode := Mode.edit, zones := [zA] }) :=
  ⟨⟨rfl, by decide⟩,
    c2_missing_geometry_rejects gNone gen0 99 (.arr [badItem]) [badItem] 4
      { mode := Mode.edit, zones := [zA] } rfl (by decide)⟩

/-- Claim C3, counterexample: a zone set within the limit whose single zone
carries a center but has zoom level 0 does not round-trip — decode's
`Number(z.zoom) || 14` turns the zero zoom into 14. -/
theorem c3_roundtrip_cex :
    ([zZ0] : List Zone).length ≤ 4 ∧ isArr zZ0.center = true ∧
      normalizeImport gNone gen0 99 (exportPayload 4 (.arr []) 12 "t" [zZ0]) 4 ≠
        .ok [zZ0] := by
  decide

/-- Claim C3 (amended): the round-trip law `decode(encode(S, meta), limit) = S`
holds for zone sets within the limit whose zones, besides carrying an array
center, have truthy ids and geometries and nonzero createdAt and zoom — the
values on which decode's `||` coalescing is the identity. -/
theorem c3_roundtrip (gB : JVal → Option Bounds) (gen : Nat → String) (now : ℚ)
    (limit : Nat) (optC : JVal) (optZ : ℚ) (expAt : String) (ws : List Zone)
    (hlen : ws.length ≤ limit) (h : ∀ z ∈ ws, z.Wf) :
    normalizeImport gB gen now (exportPayload limit optC optZ expAt ws) limit = .ok ws := by
  rw [normalizeImport_wf gB gen now _ ws limit
    (rawZones_exportPayload limit optC optZ expAt ws) h, List.take_of_length_le hlen]

/-- Witness for C3 on a concrete two-zone set with limit 4. -/
theorem c3_witness :
    (([zA, zB] : List Zone).length ≤ 4 ∧ ∀ z ∈ ([zA, zB] : List Zone), z.Wf) ∧
      normalizeImport gNone gen0 99 (exportPayload 4 (.arr []) 12 "t" [zA, zB]) 4 =
        .ok [zA, zB] :=
  ⟨⟨by decide, by decide⟩,
    c3_roundtrip gNone gen0 99 4 (.arr []) 12 "t" [zA, zB] (by decide) (by decide)⟩

/-- Claim C4: every widget operation preserves the invariant that the zone
list holds at most `limit` entries, either by refusing the mutation (draw at
the limit) or by truncating its input (import and replace-all). -/
theorem c4_limit_invariant (gB : JVal → Option Bounds) (gen : Nat → String) (now : ℚ)
    (limit : Nat) (op : Op) (s : WState) (h : s.zones.length ≤ limit) :
    (step gB gen now limit op s).zones.length ≤ limit := by
  cases op with
  | draw geo mc mz fid =>
    simp only [step, drawCreated]
    by_cases hm : s.mode ≠ Mode.edit
    · simp [hm, h]
    · by_cases hl : limit ≤ s.zones.length
      · simp [hm, hl, h]
      · simp only [hm, hl, if_false, if_true, ite_false, ite_true]
        simp [List.length_append]
        omega
  | del id =>
    simp only [step, deleteZone]
    by_cases hm : s.mode ≠ Mode.edit
    · simp [hm, h]
    · simp only [hm, ite_false, if_false]
      cases hi : s.zones.findIdx? (fun z => z.id == JVal.str id) with
      | none => simpa using h
      | some i =>
        simp only []
        exact le_trans (List.length_eraseIdx_le _ _) h
  | imp p =>
    simp only [step, importFile]
    by_cases hm : s.mode ≠ Mode.edit
    · simp [hm, h]
    · simp only [hm, ite_false, if_false]
      cases hr : normalizeImport gB gen now p limit with
      | ok ws =>
        simp only []
        exact normalizeImport_length gB gen now p limit ws hr
      | error e => simpa using h
  | clear =>
    simp only [step, clearAll]
    by_cases hm : s.mode ≠ Mode.edit
    · simp [hm, h]
    · simp [hm]
  | setZ p =>
    simp only [step, setZones]
    cases hr : normalizeImport gB gen now p limit with
    | ok ws =>
      simp only []
      exact normalizeImport_length gB gen now p limit ws hr
    | error e => simpa using h
  | setM m => simpa [step, setMode] using h
  | toggle => simpa [step, toggleMode] using h

/-- Witness for C4: drawing on a full one-zone widget with limit 1 keeps the
length within the limit. -/
theorem c4_witness :
    (({ mode := Mode.edit, zones := [zA] } : WState).zones.length ≤ 1) ∧
      (step gNone gen0 99 1 (.draw gFeat (1, 2) 10 "z_f")
          { mode := Mode.edit, zones := [zA] }).zones.length ≤ 1 :=
  ⟨by decide,
    c4_limit_invariant gNone gen0 99 1 (.draw gFeat (1, 2) 10 "z_f")
      { mode := Mode.edit, zones := [zA] } (by decide)⟩

/-- Claim C5, counterexample: a single retained element refutes all four
claimed field rules at once — its empty-string id is present yet replaced by
a generated one; its createdAt 0 coerces to the number 0 yet is replaced by
the current time; its empty-array center is not a two-element array yet is
preserved rather than derived; its zoom 0 is a finite number yet is
defaulted to 14. -/
theorem c5_field_rules_cex :
    normalizeImport gNone gen0 99 (.arr [edgeItem]) 4 = .ok [edgeItemStored] ∧
      edgeItemStored ≠ edgeItemClaimed := by
  decide

/-- Claim C5 (amended): for each retained element the id is preserved when
truthy and generated otherwise; createdAt is `Number(createdAt)` when that
is a nonzero number and the current time otherwise; the center is preserved
whenever it is an array of any length and otherwise derived from the
geometry bounds, falling back to the fixed coordinate; the zoom is
`Number(zoom)` when that is a nonzero number and 14 otherwise. -/
theorem c5_field_rules (gB : JVal → Option Bounds) (gen : String) (now : ℚ) (z : JVal)
    (hg : truthy (z.get "geojson") = true) : RetainedFieldRules gB gen now z := by
  have hrec : normalize1 gen now z = .ok
      { id := if truthy (z.get "id") then z.get "id" else .str gen,
        createdAt := numOr (z.get "createdAt") now,
        geojson := z.get "geojson",
        center := if isArr (z.get "center") then z.get "center" else .null,
        zoom := numOr (z.get "zoom") 14 } := by
    unfold normalize1
    rw [if_pos hg]
  refine ⟨_, hrec, rfl, ?_, ?_, ?_, ?_, ?_, ?_, ?_, ?_, ?_⟩
  · intro hid
    exact if_pos hid
  · intro hid
    exact if_neg (by simp [hid])
  · intro q hq hq0
    simp [numOr, hq, hq0]
  · intro hor
    cases hor with
    | inl hq => simp [numOr, hq]
    | inr hq => simp [numOr, hq]
  · intro hc
    have hcen : (if isArr (z.get "center") then z.get "center" else JVal.null) =
        z.get "center" := if_pos hc
    simp only [deriveCenter, hcen, truthy_of_isArr hc, if_true, ite_true]
  · intro hc hb
    have hcen : (if isArr (z.get "center") then z.get "center" else JVal.null) =
        JVal.null := if_neg (by simp [hc])
    simp [deriveCenter, hcen, truthy, hb]
  · intro b hc hb
    have hcen : (if isArr (z.get "center") then z.get "center" else JVal.null) =
        JVal.null := if_neg (by simp [hc])
    simp [deriveCenter, hcen, truthy, hb]
  · intro q hq hq0
    simp [numOr, hq, hq0]
  · intro hor
    cases hor with
    | inl hq => simp [numOr, hq]
    | inr hq => simp [numOr, hq]

/-- Witness for C5 at the concrete edge element. -/
theorem c5_witness :
    truthy (edgeItem.get "geojson") = true ∧
      RetainedFieldRules gNone "z_gen0" 99 edgeItem :=
  ⟨by decide, c5_field_rules gNone "z_gen0" 99 edgeItem (by decide)⟩

/-- Claim C6: once past the mode gate (edit mode), drawing when the set has
reached the limit changes nothing and reports the limit-reached condition;
drawing below the limit appends exactly one zone carrying the freshly
generated id and the current timestamp. -/
theorem c6_create_limit (gB : JVal → Option Bounds) (fid : String) (now : ℚ)
    (mc : ℚ × ℚ) (mz : ℚ) (limit : Nat) (geo : JVal) (s : WState)
    (hmode : s.mode = Mode.edit) :
    (limit ≤ s.zones.length →
      drawCreated gB fid now mc mz limit geo s = (s, CreateResult.limitReached)) ∧
      (s.zones.length < limit →
        ∃ z : Zone, drawCreated gB fid now mc mz limit geo s =
            ({ s with zones := s.zones ++ [z] }, .created z) ∧
          z.id = .str fid ∧ z.createdAt = now) := by
  have hm : ¬ s.mode ≠ Mode.edit := by simp [hmode]
  constructor
  · intro hl
    simp [drawCreated, hm, hl]
  · intro hl
    refine ⟨drawnZone gB fid now mc mz geo, ?_, rfl, rfl⟩
    simp [drawCreated, hm, Nat.not_le.mpr hl]

/-- Witness for C6 on a full one-zone widget with limit 1. -/
theorem c6_witness :
    ({ mode := Mode.edit, zones := [zA] } : WState).mode = Mode.edit ∧
      (1 ≤ ([zA] : List Zone).length ∧
        drawCreated gNone "z_f" 7 (1, 2) 10 1 gFeat { mode := Mode.edit, zones := [zA] } =
          ({ mode := Mode.edit, zones := [zA] }, CreateResult.limitReached)) :=
  ⟨rfl, by decide,
    (c6_create_limit gNone "z_f" 7 (1, 2) 10 1 gFeat
      { mode := Mode.edit, zones := [zA] } rfl).1 (by decide)⟩

/-- Claim C7, counterexample: a three-element input with limit 2 whose first
element is a zoom-0 zone record is not stored as the first two input
elements verbatim: the zero zoom comes back as 14. -/
theorem c7_truncate_cex :
    ([zZ0.toJVal, zA.toJVal, zB.toJVal] : List JVal).length > 2 ∧
      (setZones gNone gen0 99 (.arr [zZ0.toJVal, zA.toJVal, zB.toJVal]) 2
          { mode := Mode.edit, zones := [] }).1.zones ≠ [zZ0, zA] := by
  decide

/-- Claim C7 (amended): replace-all with more than `limit` well-formed zone
records stores exactly the first `limit` of them in their original order,
silently dropping the excess; this holds for the ungated `setZones` in any
mode, and for the file import in edit mode. -/
theorem c7_truncate (gB : JVal → Option Bounds) (gen : Nat → String) (now : ℚ)
    (limit : Nat) (s : WState) (ws : List Zone)
    (hlen : limit < ws.length) (h : ∀ z ∈ ws, z.Wf) :
    ((setZones gB gen now (.arr (ws.map Zone.toJVal)) limit s).1.zones = ws.take limit ∧
      (setZones gB gen now (.arr (ws.map Zone.toJVal)) limit s).1.zones.length = limit) ∧
      (s.mode = Mode.edit →
        (importFile gB gen now (.arr (ws.map Zone.toJVal)) limit s).zones = ws.take limit) := by
  have hni : normalizeImport gB gen now (.arr (ws.map Zone.toJVal)) limit =
      .ok (ws.take limit) := normalizeImport_wf gB gen now _ ws limit rfl h
  have hz : (setZones gB gen now (.arr (ws.map Zone.toJVal)) limit s).1.zones =
      ws.take limit := by
    simp [setZones, hni]
  refine ⟨⟨hz, ?_⟩, ?_⟩
  · rw [hz, List.length_take]
    omega
  · intro hmode
    have hm : ¬ s.mode ≠ Mode.edit := by simp [hmode]
    simp [importFile, hm, hni]

/-- Witness for C7 on a concrete three-zone input with limit 2. -/
theorem c7_witness :
    (2 < ([zA, zB, zC] : List Zone).length ∧ ∀ z ∈ ([zA, zB, zC] : List Zone), z.Wf) ∧
      (((setZones gNone gen0 99 (.arr ([zA, zB, zC].map Zone.toJVal)) 2
            { mode := Mode.edit, zones := [] }).1.zones = [zA, zB, zC].take 2 ∧
        (setZones gNone gen0 99 (.arr ([zA, zB, zC].map Zone.toJVal)) 2
            { mode := Mode.edit, zones := [] }).1.zones.length = 2) ∧
        (({ mode := Mode.edit, zones := [] } : WState).mode = Mode.edit →
          (importFile gNone gen0 99 (.arr ([zA, zB, zC].map Zone.toJVal)) 2
              { mode := Mode.edit, zones := [] }).zones = [zA, zB, zC].take 2)) :=
  ⟨⟨by decide, by decide⟩,
    c7_truncate gNone gen0 99 2 { mode := Mode.edit, zones := [] } [zA, zB, zC]
      (by decide) (by decide)⟩

/-- Claim C8: in edit mode, deleting an id matching no zone leaves the state
unchanged, and deleting a present id removes exactly the first zone bearing
it, preserving the order of the remaining zones. -/
theorem c8_delete (id : String) (s : WState) (hmode : s.mode = Mode.edit) :
    ((∀ z ∈ s.zones, z.id ≠ JVal.str id) → deleteZone id s = s) ∧
      (∀ l1 z l2, s.zones = l1 ++ z :: l2 → z.id = JVal.str id →
        (∀ w ∈ l1, w.id ≠ JVal.str id) →
        deleteZone id s = { s with zones := l1 ++ l2 }) := by
  have hm : ¬ s.mode ≠ Mode.edit := by simp [hmode]
  constructor
  · intro hno
    have hfind : s.zones.findIdx? (fun z => z.id == JVal.str id) = none := by
      rw [List.findIdx?_eq_none_iff]
      intro x hx
      simpa using hno x hx
    simp [deleteZone, hm, hfind]
  · intro l1 z l2 hsz hz hl1
    have hfind : s.zones.findIdx? (fun w => w.id == JVal.str id) = some l1.length := by
      rw [hsz]
      exact findIdx?_middle _ l1 z l2 (fun w hw => by simpa using hl1 w hw)
        (by simpa using hz)
    have hres : deleteZone id s = { s with zones := s.zones.eraseIdx l1.length } := by
      simp [deleteZone, hm, hfind]
    rw [hres, hsz, eraseIdx_middle]

/-- Witness for C8: deleting an absent id is a no-op, deleting the second of
two zones keeps exactly the first. -/
theorem c8_witness :
    ({ mode := Mode.edit, zones := [zA, zB] } : WState).mode = Mode.edit ∧
      deleteZone "nope" { mode := Mode.edit, zones := [zA, zB] } =
        { mode := Mode.edit, zones := [zA, zB] } ∧
      deleteZone "z_b" { mode := Mode.edit, zones := [zA, zB] } =
        { mode := Mode.edit, zones := [zA] } :=
  ⟨rfl,
    (c8_delete "nope" { mode := Mode.edit, zones := [zA, zB] } rfl).1 (by decide),
    by
      have hdel := (c8_delete "z_b" { mode := Mode.edit, zones := [zA, zB] } rfl).2
        [zA] zB [] rfl (by decide) (by decide)
      simpa using hdel⟩

/-- Claim C9, counterexample: focusing a zone whose geometry yields invalid
bounds and whose stored zoom level is 0 centers the view at zoom 14, not at
the zone's own zoom as the claim states. -/
theorem c9_focus_cex :
    focusZone gNone zZ0 ≠ ViewTarget.setView zZ0.center zZ0.zoom := by
  decide

/-- Claim C9 (amended): focus is total and deterministic — when the geometry
yields valid bounds the view is fit to them with padding 30,30; otherwise it
is centered on the zone's center at the zone's zoom, except that a zero zoom
is replaced by 14; focusing an id matching no zone is a no-op. -/
theorem c9_focus_total (gB : JVal → Option Bounds) (id : String) (s : WState) :
    ((∀ z ∈ s.zones, z.id ≠ JVal.str id) → focusZoneById gB id s = none) ∧
      (∀ z, s.zones.find? (fun w => w.id == JVal.str id) = some z →
        ((∀ b, gB z.geojson = some b →
            focusZoneById gB id s = some (.fitBounds b 30 30)) ∧
          (gB z.geojson = none →
            focusZoneById gB id s =
              some (.setView z.center (if z.zoom = 0 then 14 else z.zoom))))) := by
  constructor
  · intro hno
    have hfind : s.zones.find? (fun w => w.id == JVal.str id) = none := by
      rw [List.find?_eq_none]
      intro x hx
      simpa using hno x hx
    simp [focusZoneById, hfind]
  · intro z hz
    constructor
    · intro b hb
      simp [focusZoneById, hz, focusZone, hb]
    · intro hb
      simp [focusZoneById, hz, focusZone, hb]

/-- Witness for C9: an absent id is a no-op; a present id with invalid
bounds yields the center/zoom fallback target. -/
theorem c9_witness :
    focusZoneById gNone "nope" { mode := Mode.view, zones := [zA] } = none ∧
      focusZoneById gNone "z_a" { mode := Mode.view, zones := [zA] } =
        some (.setView zA.center (if zA.zoom = 0 then 14 else zA.zoom)) :=
  ⟨(c9_focus_total gNone "nope" { mode := Mode.view, zones := [zA] }).1 (by decide),
    ((c9_focus_total gNone "z_a" { mode := Mode.view, zones := [zA] }).2 zA rfl).2 rfl⟩

/-- Claim C10: a zone created through the draw handler stores the minimum of
the main map's zoom and 17 as its zoom, which therefore never exceeds 17. -/
theorem c10_draw_zoom (gB : JVal → Option Bounds) (fid : String) (now : ℚ)
    (mc : ℚ × ℚ) (mz : ℚ) (limit : Nat) (geo : JVal) (s : WState)
    (hmode : s.mode = Mode.edit) (hlen : s.zones.length < limit) :
    (drawCreated gB fid now mc mz limit geo s).1.zones =
        s.zones ++ [drawnZone gB fid now mc mz geo] ∧
      (drawnZone gB fid now mc mz geo).zoom = min mz 17 ∧
      (drawnZone gB fid now mc mz geo).zoom ≤ 17 := by
  have hm : ¬ s.mode ≠ Mode.edit := by simp [hmode]
  refine ⟨?_, rfl, ?_⟩
  · simp [drawCreated, hm, Nat.not_le.mpr hlen]
  · exact min_le_right _ _

/-- Witness for C10 on an empty edit-mode widget with map zoom 19. -/
theorem c10_witness :
    (({ mode := Mode.edit, zones := [] } : WState).mode = Mode.edit ∧
      ([] : List Zone).length < 4) ∧
      ((drawCreated gNone "z_f" 7 (1, 2) 19 4 gFeat
            { mode := Mode.edit, zones := [] }).1.zones =
          [] ++ [drawnZone gNone "z_f" 7 (1, 2) 19 gFeat] ∧
        (drawnZone gNone "z_f" 7 (1, 2) 19 gFeat).zoom = min 19 17 ∧
        (drawnZone gNone "z_f" 7 (1, 2) 19 gFeat).zoom ≤ 17) :=
  ⟨⟨rfl, by decide⟩,
    c10_draw_zoom gNone "z_f" 7 (1, 2) 19 4 gFeat { mode := Mode.edit, zones := [] }
      rfl (by decide)⟩

end ZW
